import Mathlib

/-!
Shallow embedding of `lib/env/render/TradingChart.py` (class `TradingChart`).

Numeric values (prices, volumes, net worths, timestamps) are modelled as
rationals.  Python exceptions (`IndexError` on out-of-range indexing,
`ZeroDivisionError`, `ValueError` from `min`/`max` of an empty sequence) are
modelled with `Except PyErr`.  Matplotlib itself is opaque: the figure is
modelled as a record of everything the code hands to it (plotted series,
annotations, axis limits, title, tick labels); the autoscaled y-limits that
`price_ax.get_ylim()` returns after a plot, and the `strftime` date
formatting, are environment parameters (`MplEnv`).
-/

attribute [local semireducible] Rat.mul Rat.add Rat.sub Rat.inv Rat.ofScientific

/-- Python runtime errors that the rendering code can raise. -/
inductive PyErr where
  | indexError
  | zeroDiv
  | valueError
deriving Repr, DecidableEq

/-- Python list indexing `l[i]` for a nonnegative index: raises `IndexError`
out of range. -/
def listGet (l : List ℚ) (i : ℕ) : Except PyErr ℚ :=
  match l.get? i with
  | some v => Except.ok v
  | none => Except.error PyErr.indexError

/-- Python `l[-1]`: the last element, `IndexError` on an empty list. -/
def getLastE (l : List ℚ) : Except PyErr ℚ :=
  match l.getLast? with
  | some v => Except.ok v
  | none => Except.error PyErr.indexError

/-- Python slicing `l[a:b]` for `0 ≤ a ≤ b` (out-of-range bounds truncate,
never raise). -/
def listSlice (l : List ℚ) (a b : ℕ) : List ℚ :=
  (l.drop a).take (b - a)

/-- Python `/`: raises `ZeroDivisionError` on a zero divisor. -/
def pyDiv (a b : ℚ) : Except PyErr ℚ :=
  if b = 0 then Except.error PyErr.zeroDiv else Except.ok (a / b)

/-- Python `max(seq)`: `ValueError` on an empty sequence. -/
def pyMax (l : List ℚ) : Except PyErr ℚ :=
  match l with
  | [] => Except.error PyErr.valueError
  | x :: xs => Except.ok (xs.foldl max x)

/-- Python `min(seq)`: `ValueError` on an empty sequence. -/
def pyMin (l : List ℚ) : Except PyErr ℚ :=
  match l with
  | [] => Except.error PyErr.valueError
  | x :: xs => Except.ok (xs.foldl min x)

/-- Round to the nearest integer, ties to even (CPython's rounding of an
exactly represented value). -/
def roundHalfEven (x : ℚ) : ℤ :=
  let f : ℤ := x.floor
  let r : ℚ := x - f
  if r < 1/2 then f
  else if 1/2 < r then f + 1
  else if f % 2 = 0 then f else f + 1

/-- Python `round(x, 2)`. -/
def pyRound2 (x : ℚ) : ℚ :=
  (roundHalfEven (x * 100) : ℚ) / 100

/-- Python's `sys.maxsize` on a 64-bit platform. -/
def maxsize : ℤ := 9223372036854775807

instance {e a : Type} [DecidableEq e] [DecidableEq a] : DecidableEq (Except e a) := fun x y =>
  match x, y with
  | Except.ok u, Except.ok v =>
    if h : u = v then isTrue (by rw [h]) else isFalse (fun hh => h (Except.ok.inj hh))
  | Except.error u, Except.error v =>
    if h : u = v then isTrue (by rw [h]) else isFalse (fun hh => h (Except.error.inj hh))
  | Except.ok _, Except.error _ => isFalse (fun hh => Except.noConfusion hh)
  | Except.error _, Except.ok _ => isFalse (fun hh => Except.noConfusion hh)

/-- The price dataframe `self.df`: one list per column. -/
structure DataFrame where
  date : List ℚ
  openCol : List ℚ
  high : List ℚ
  low : List ℚ
  close : List ℚ
  volume : List ℚ
deriving Repr, DecidableEq

/-- A benchmark record `{'label': ..., 'values': ...}`. -/
structure Benchmark where
  label : String
  values : List ℚ
deriving Repr, DecidableEq

/-- A trade record `{'step': ..., 'type': ...}`. -/
structure Trade where
  step : ℤ
  type : String
deriving Repr, DecidableEq

/-- One `ax.plot(xs, ys, label=..., color=..., alpha=...)` call (alpha `1`
when the call passes none). -/
structure PlotLine where
  xs : List ℚ
  ys : List ℚ
  label : String
  color : String
  alpha : ℚ
deriving Repr, DecidableEq

/-- A boxed text label `ax.annotate('...', (x, y), xytext=(tx, ty), ...)`
showing `value`. -/
structure TextLabel where
  x : ℚ
  y : ℚ
  tx : ℚ
  ty : ℚ
  value : ℚ
deriving Repr, DecidableEq

/-- An arrow produced by `_render_trades` for one trade: anchored at
`(x, y)` with the arrow face color. -/
structure Arrow where
  x : ℚ
  y : ℚ
  color : String
deriving Repr, DecidableEq

/-- State of `self.net_worth_ax` after a redraw. -/
structure NetWorthPane where
  plots : List PlotLine
  label : TextLabel
  ylim : ℚ × ℚ
deriving Repr, DecidableEq

/-- State of `self.price_ax` after a redraw. -/
structure PricePane where
  line : PlotLine
  label : TextLabel
  ylim : ℚ × ℚ
deriving Repr, DecidableEq

/-- State of `self.volume_ax` after a redraw. -/
structure VolumePane where
  line : PlotLine
  fillAlpha : ℚ
  ylim : ℚ × ℚ
deriving Repr, DecidableEq

/-- Everything `render` hands to the figure. -/
structure FigState where
  title : String
  netWorth : NetWorthPane
  price : PricePane
  volume : VolumePane
  arrows : List Arrow
  priceXtickLabels : List String
  netWorthXticksVisible : Bool
  isOpen : Bool
deriving Repr, DecidableEq

/-- The `TradingChart` object: the dataframe given to `__init__` plus the
figure state. -/
structure Chart where
  df : DataFrame
  fig : FigState
deriving Repr, DecidableEq

/-- Opaque matplotlib behaviour: the y-limits autoscaling picks after
plotting a series, and the `strftime('%m/%d/%Y %H:%M')` formatting of a
timestamp. -/
structure MplEnv where
  autoYlim : List ℚ → ℚ × ℚ
  fmtDate : ℚ → String

/-- The module constant `VOLUME_CHART_HEIGHT = 0.33`. -/
def VOLUME_CHART_HEIGHT : ℚ := 33/100

/-- The palette in `_render_benchmarks`. -/
def colors : List String :=
  ["orange", "cyan", "purple", "blue", "magenta", "yellow", "black", "red", "green"]

/-- The slice start `window_start = max(current_step - window_size, 0)`. -/
def window_start (current_step window_size : ℕ) : ℤ :=
  max ((current_step : ℤ) - (window_size : ℤ)) 0

/-- Membership of `trade['step']` in `range(sys.maxsize)[step_range]` where
`step_range = slice(ws, cs + 1)`. -/
def inWindow (ws cs : ℕ) (s : ℤ) : Bool :=
  decide ((ws : ℤ) ≤ s ∧ s < (cs : ℤ) + 1 ∧ s < maxsize)

/-- Embeds `TradingChart._render_benchmarks`: one plot per benchmark, color
`colors[i % len(colors)]`, alpha `0.3`. -/
def renderBenchmarks (times : List ℚ) (ws cs : ℕ) (benchmarks : List Benchmark) :
    List PlotLine :=
  benchmarks.enum.map (fun p =>
    ⟨times, listSlice p.2.values ws (cs + 1), p.2.label,
      colors.getD (p.1 % colors.length) "", 3/10⟩)

/-- Embeds `TradingChart._render_net_worth`. -/
def renderNetWorth (df : DataFrame) (ws cs : ℕ) (times : List ℚ)
    (net_worths : List ℚ) (benchmarks : List Benchmark) :
    Except PyErr NetWorthPane :=
  let plots : List PlotLine :=
    ⟨times, listSlice net_worths ws (cs + 1), "Net Worth", "g", 1⟩ ::
      renderBenchmarks times ws cs benchmarks
  match listGet df.date cs with
  | Except.error e => Except.error e
  | Except.ok last_time =>
    match listGet net_worths cs with
    | Except.error e => Except.error e
    | Except.ok last_net_worth =>
      match pyMin net_worths with
      | Except.error e => Except.error e
      | Except.ok mn =>
        match pyMax net_worths with
        | Except.error e => Except.error e
        | Except.ok mx =>
          Except.ok ⟨plots,
            ⟨last_time, last_net_worth, last_time, last_net_worth, last_net_worth⟩,
            (mn / (5/4), mx * (5/4))⟩

/-- Embeds `TradingChart._render_price`: plots the windowed closes, annotates the
last close at the last high, and shifts the autoscaled y-limits down by
`VOLUME_CHART_HEIGHT` of the range. -/
def renderPrice (env : MplEnv) (df : DataFrame) (ws cs : ℕ) (times : List ℚ) :
    Except PyErr PricePane :=
  let closes := listSlice df.close ws (cs + 1)
  match listGet df.date cs with
  | Except.error e => Except.error e
  | Except.ok last_time =>
    match listGet df.close cs with
    | Except.error e => Except.error e
    | Except.ok last_close =>
      match listGet df.high cs with
      | Except.error e => Except.error e
      | Except.ok last_high =>
        let ylim := env.autoYlim closes
        Except.ok ⟨⟨times, closes, "", "black", 1⟩,
          ⟨last_time, last_close, last_time, last_high, last_close⟩,
          (ylim.1 - (ylim.2 - ylim.1) * VOLUME_CHART_HEIGHT, ylim.2)⟩

/-- Embeds `TradingChart._render_volume`: plots and fills the windowed volume and
sets the y-limits to `(0, max(volume) / VOLUME_CHART_HEIGHT)`. -/
def renderVolume (df : DataFrame) (ws cs : ℕ) (times : List ℚ) :
    Except PyErr VolumePane :=
  let volume := listSlice df.volume ws (cs + 1)
  match pyMax volume with
  | Except.error e => Except.error e
  | Except.ok mx =>
    Except.ok ⟨⟨times, volume, "", "blue", 1⟩, 1/2,
      (0, mx / VOLUME_CHART_HEIGHT)⟩

/-- Embeds `TradingChart._render_trades`: for each trade whose step lies in
`range(sys.maxsize)[step_range]`, one arrow at that step's (date, close),
green for `'buy'`, red otherwise. -/
def renderTrades (df : DataFrame) (ws cs : ℕ) (trades : List Trade) :
    Except PyErr (List Arrow) :=
  match trades with
  | [] => Except.ok []
  | t :: ts =>
    if inWindow ws cs t.step then
      match listGet df.date t.step.toNat with
      | Except.error e => Except.error e
      | Except.ok d =>
        match listGet df.close t.step.toNat with
        | Except.error e => Except.error e
        | Except.ok c =>
          match renderTrades df ws cs ts with
          | Except.error e => Except.error e
          | Except.ok rest =>
            Except.ok (⟨d, c, if t.type = "buy" then "g" else "r"⟩ :: rest)
    else renderTrades df ws cs ts

/-- Lines 127–129 of `render`: the rounded net worth and profit percent. -/
def profitCalc (net_worths : List ℚ) : Except PyErr (ℚ × ℚ) :=
  match getLastE net_worths with
  | Except.error e => Except.error e
  | Except.ok nv =>
    match listGet net_worths 0 with
    | Except.error e => Except.error e
    | Except.ok iv =>
      let net_worth := pyRound2 nv
      let initial_net_worth := pyRound2 iv
      match pyDiv (net_worth - initial_net_worth) initial_net_worth with
      | Except.error e => Except.error e
      | Except.ok q => Except.ok (net_worth, pyRound2 (q * 100))

/-- The `fig.suptitle` string. -/
def mkTitle (net_worth profit_percent : ℚ) : String :=
  "Net worth: $" ++ toString net_worth ++ " | Profit: " ++ toString profit_percent ++ "%"

/-- Embeds `TradingChart.render`. -/
def render (env : MplEnv) (c : Chart) (current_step : ℕ) (net_worths : List ℚ)
    (benchmarks : List Benchmark) (trades : List Trade) (window_size : ℕ) :
    Except PyErr Chart :=
  match profitCalc net_worths with
  | Except.error e => Except.error e
  | Except.ok pr =>
    let title := mkTitle pr.1 pr.2
    let ws := (window_start current_step window_size).toNat
    let times := listSlice c.df.date ws (current_step + 1)
    match renderNetWorth c.df ws current_step times net_worths benchmarks with
    | Except.error e => Except.error e
    | Except.ok nwPane =>
      match renderPrice env c.df ws current_step times with
      | Except.error e => Except.error e
      | Except.ok pPane =>
        match renderVolume c.df ws current_step times with
        | Except.error e => Except.error e
        | Except.ok vPane =>
          match renderTrades c.df ws current_step trades with
          | Except.error e => Except.error e
          | Except.ok arrows =>
            let date_labels :=
              (listSlice c.df.date ws (current_step + 1)).map env.fmtDate
            Except.ok ⟨c.df,
              ⟨title, nwPane, pPane, vPane, arrows, date_labels, false, c.fig.isOpen⟩⟩

/-- Embeds `TradingChart.close`, which calls `plt.close()`. -/
def closeChart (c : Chart) : Chart :=
  ⟨c.df, ⟨c.fig.title, c.fig.netWorth, c.fig.price, c.fig.volume, c.fig.arrows,
    c.fig.priceXtickLabels, c.fig.netWorthXticksVisible, false⟩⟩

/-- A concrete one-row dataframe used to instantiate theorems. -/
def df0 : DataFrame :=
  ⟨[1], [2], [3], [1], [2], [5]⟩

/-- A concrete environment: autoscale always answers `(0, 1)`, dates format
to the empty string. -/
def env0 : MplEnv :=
  ⟨fun _ => (0, 1), fun _ => ""⟩

/-- A concrete chart over `df0`. -/
def c0 : Chart :=
  ⟨df0, ⟨"", ⟨[], ⟨0, 0, 0, 0, 0⟩, (0, 0)⟩, ⟨⟨[], [], "", "", 1⟩, ⟨0, 0, 0, 0, 0⟩, (0, 0)⟩,
    ⟨⟨[], [], "", "", 1⟩, 1, (0, 0)⟩, [], [], true, true⟩⟩

/-- Ten concrete benchmarks, to instantiate the palette-cycling theorem. -/
def bs10 : List Benchmark := List.replicate 10 ⟨"b", []⟩

/-
Helper lemmas about the embedded Python primitives.
-/

theorem listGet_ok {l : List ℚ} {i : ℕ} (h : i < l.length) :
    ∃ v, listGet l i = Except.ok v ∧ l.get? i = some v := by
  unfold listGet
  cases hv : l.get? i with
  | none => exact absurd (List.get?_eq_none.mp hv) (by omega)
  | some v => exact ⟨v, rfl, rfl⟩

theorem listGet_error {l : List ℚ} {i : ℕ} {e : PyErr}
    (h : listGet l i = Except.error e) : e = PyErr.indexError := by
  unfold listGet at h
  cases hv : l.get? i with
  | none => rw [hv] at h; exact (Except.error.inj h).symm
  | some v => rw [hv] at h; exact absurd h (by simp)

theorem getLastE_ok {l : List ℚ} (h : l ≠ []) :
    ∃ v, getLastE l = Except.ok v ∧ l.getLast? = some v := by
  unfold getLastE
  cases hv : l.getLast? with
  | none => exact absurd (List.getLast?_eq_none.mp hv) h
  | some v => exact ⟨v, rfl, rfl⟩

theorem getLastE_error {l : List ℚ} {e : PyErr}
    (h : getLastE l = Except.error e) : e = PyErr.indexError := by
  unfold getLastE at h
  cases hv : l.getLast? with
  | none => rw [hv] at h; exact (Except.error.inj h).symm
  | some v => rw [hv] at h; exact absurd h (by simp)

theorem pyDiv_error {a b : ℚ} {e : PyErr}
    (h : pyDiv a b = Except.error e) : e = PyErr.zeroDiv ∧ b = 0 := by
  unfold pyDiv at h
  by_cases hb : b = 0
  · rw [if_pos hb] at h
    exact ⟨(Except.error.inj h).symm, hb⟩
  · rw [if_neg hb] at h
    exact absurd h (by simp)

theorem foldl_max_init_le : ∀ (xs : List ℚ) (a : ℚ), a ≤ xs.foldl max a := by
  intro xs
  induction xs with
  | nil => intro a; exact le_refl a
  | cons x t ih =>
    intro a
    exact le_trans (le_max_left a x) (ih (max a x))

theorem foldl_max_le_of_mem : ∀ (xs : List ℚ) (a x : ℚ), x ∈ xs → x ≤ xs.foldl max a := by
  intro xs
  induction xs with
  | nil => intro a x hx; cases hx
  | cons y t ih =>
    intro a x hx
    cases hx with
    | head => exact le_trans (le_max_right a y) (foldl_max_init_le t (max a y))
    | tail _ hm => exact ih (max a y) x hm

theorem foldl_max_mem : ∀ (xs : List ℚ) (a : ℚ), xs.foldl max a ∈ a :: xs := by
  intro xs
  induction xs with
  | nil => intro a; exact List.mem_singleton.mpr rfl
  | cons x t ih =>
    intro a
    rcases List.mem_cons.mp (ih (max a x)) with h | h
    · rcases max_choice a x with hm | hm
      · exact List.mem_cons.mpr (Or.inl (h.trans hm))
      · refine List.mem_cons.mpr (Or.inr ?_)
        exact List.mem_cons.mpr (Or.inl (h.trans hm))
    · exact List.mem_cons.mpr (Or.inr (List.mem_cons.mpr (Or.inr h)))

theorem pyMax_ok {l : List ℚ} (h : l ≠ []) : ∃ m, pyMax l = Except.ok m := by
  cases l with
  | nil => exact absurd rfl h
  | cons x t => exact ⟨t.foldl max x, rfl⟩

theorem pyMax_spec {l : List ℚ} {m : ℚ} (h : pyMax l = Except.ok m) :
    m ∈ l ∧ ∀ x ∈ l, x ≤ m := by
  cases l with
  | nil => exact absurd h (by simp [pyMax])
  | cons y t =>
    have hm : m = t.foldl max y := (Except.ok.inj h).symm
    subst hm
    refine ⟨foldl_max_mem t y, ?_⟩
    intro x hx
    rcases List.mem_cons.mp hx with hh | hh
    · exact hh ▸ foldl_max_init_le t y
    · exact foldl_max_le_of_mem t y x hh

theorem pyMax_error {l : List ℚ} {e : PyErr}
    (h : pyMax l = Except.error e) : e = PyErr.valueError ∧ l = [] := by
  cases l with
  | nil => exact ⟨(Except.error.inj h).symm, rfl⟩
  | cons y t => exact absurd h (by simp [pyMax])

theorem foldl_min_le_init : ∀ (xs : List ℚ) (a : ℚ), xs.foldl min a ≤ a := by
  intro xs
  induction xs with
  | nil => intro a; exact le_refl a
  | cons x t ih =>
    intro a
    exact le_trans (ih (min a x)) (min_le_left a x)

theorem foldl_min_le_of_mem : ∀ (xs : List ℚ) (a x : ℚ), x ∈ xs → xs.foldl min a ≤ x := by
  intro xs
  induction xs with
  | nil => intro a x hx; cases hx
  | cons y t ih =>
    intro a x hx
    cases hx with
    | head => exact le_trans (foldl_min_le_init t (min a y)) (min_le_right a y)
    | tail _ hm => exact ih (min a y) x hm

theorem foldl_min_mem : ∀ (xs : List ℚ) (a : ℚ), xs.foldl min a ∈ a :: xs := by
  intro xs
  induction xs with
  | nil => intro a; exact List.mem_singleton.mpr rfl
  | cons x t ih =>
    intro a
    rcases List.mem_cons.mp (ih (min a x)) with h | h
    · rcases min_choice a x with hm | hm
      · exact List.mem_cons.mpr (Or.inl (h.trans hm))
      · refine List.mem_cons.mpr (Or.inr ?_)
        exact List.mem_cons.mpr (Or.inl (h.trans hm))
    · exact List.mem_cons.mpr (Or.inr (List.mem_cons.mpr (Or.inr h)))

theorem pyMin_ok {l : List ℚ} (h : l ≠ []) : ∃ m, pyMin l = Except.ok m := by
  cases l with
  | nil => exact absurd rfl h
  | cons x t => exact ⟨t.foldl min x, rfl⟩

theorem pyMin_spec {l : List ℚ} {m : ℚ} (h : pyMin l = Except.ok m) :
    m ∈ l ∧ ∀ x ∈ l, m ≤ x := by
  cases l with
  | nil => exact absurd h (by simp [pyMin])
  | cons y t =>
    have hm : m = t.foldl min y := (Except.ok.inj h).symm
    subst hm
    refine ⟨foldl_min_mem t y, ?_⟩
    intro x hx
    rcases List.mem_cons.mp hx with hh | hh
    · exact hh ▸ foldl_min_le_init t y
    · exact foldl_min_le_of_mem t y x hh

theorem pyMin_error {l : List ℚ} {e : PyErr}
    (h : pyMin l = Except.error e) : e = PyErr.valueError ∧ l = [] := by
  cases l with
  | nil => exact ⟨(Except.error.inj h).symm, rfl⟩
  | cons y t => exact absurd h (by simp [pyMin])

theorem listSlice_length (l : List ℚ) (a b : ℕ) :
    (listSlice l a b).length = min (b - a) (l.length - a) := by
  unfold listSlice
  rw [List.length_take, List.length_drop]

theorem profitCalc_eq {nws : List ℚ} {first lastv : ℚ}
    (hf : nws.head? = some first) (hl : nws.getLast? = some lastv) :
    profitCalc nws =
      if pyRound2 first = 0 then Except.error PyErr.zeroDiv
      else Except.ok (pyRound2 lastv,
        pyRound2 ((pyRound2 lastv - pyRound2 first) / pyRound2 first * 100)) := by
  cases nws with
  | nil => cases hf
  | cons a t =>
    have ha : a = first := by simpa using hf
    subst ha
    simp only [profitCalc, getLastE, listGet, pyDiv, hl, List.get?]
    by_cases h0 : pyRound2 a = 0
    · simp [h0]
    · simp [h0]

theorem profitCalc_cases {nws : List ℚ} (h : nws ≠ []) :
    profitCalc nws = Except.error PyErr.zeroDiv ∨ ∃ pr, profitCalc nws = Except.ok pr := by
  cases hf : nws.head? with
  | none => exact absurd (by simpa using hf) h
  | some first =>
    cases hl : nws.getLast? with
    | none => exact absurd (List.getLast?_eq_none.mp hl) h
    | some lastv =>
      rw [profitCalc_eq hf hl]
      by_cases h0 : pyRound2 first = 0
      · exact Or.inl (by rw [if_pos h0])
      · exact Or.inr ⟨_, by rw [if_neg h0]⟩

theorem renderNetWorth_elim {df : DataFrame} {ws cs : ℕ} {times nws : List ℚ}
    {bs : List Benchmark} {p : NetWorthPane}
    (h : renderNetWorth df ws cs times nws bs = Except.ok p) :
    ∃ mn mx : ℚ, pyMin nws = Except.ok mn ∧ pyMax nws = Except.ok mx ∧
      p.ylim = (mn / (5/4), mx * (5/4)) := by
  unfold renderNetWorth at h
  split at h
  · exact Except.noConfusion h
  · split at h
    · exact Except.noConfusion h
    · split at h
      · exact Except.noConfusion h
      · split at h
        · exact Except.noConfusion h
        · rename_i mn hmn _ mx hmx
          exact ⟨mn, mx, hmn, hmx, by rw [← Except.ok.inj h]⟩

theorem renderNetWorth_ok {df : DataFrame} {cs : ℕ} {nws : List ℚ} (ws : ℕ)
    (times : List ℚ) (bs : List Benchmark)
    (hd : cs < df.date.length) (hn : cs < nws.length) :
    ∃ p, renderNetWorth df ws cs times nws bs = Except.ok p := by
  obtain ⟨lt, hlt, _⟩ := listGet_ok hd
  obtain ⟨lnw, hlnw, _⟩ := listGet_ok hn
  have hne : nws ≠ [] := by
    intro hnil
    rw [hnil] at hn
    exact absurd hn (by simp)
  obtain ⟨mn, hmn⟩ := pyMin_ok hne
  obtain ⟨mx, hmx⟩ := pyMax_ok hne
  unfold renderNetWorth
  rw [hlt, hlnw, hmn, hmx]
  exact ⟨_, rfl⟩

theorem renderNetWorth_ne_zeroDiv {df : DataFrame} {ws cs : ℕ} {times nws : List ℚ}
    {bs : List Benchmark} :
    renderNetWorth df ws cs times nws bs ≠ Except.error PyErr.zeroDiv := by
  intro h
  unfold renderNetWorth at h
  split at h
  · rename_i e he
    exact PyErr.noConfusion ((listGet_error he).symm.trans (Except.error.inj h))
  · split at h
    · rename_i e he
      exact PyErr.noConfusion ((listGet_error he).symm.trans (Except.error.inj h))
    · split at h
      · rename_i e he
        exact PyErr.noConfusion ((pyMin_error he).1.symm.trans (Except.error.inj h))
      · split at h
        · rename_i e he
          exact PyErr.noConfusion ((pyMax_error he).1.symm.trans (Except.error.inj h))
        · exact Except.noConfusion h

theorem renderPrice_ok {env : MplEnv} {df : DataFrame} {cs : ℕ} (ws : ℕ) (times : List ℚ)
    (hd : cs < df.date.length) (hc : cs < df.close.length) (hh : cs < df.high.length) :
    ∃ p, renderPrice env df ws cs times = Except.ok p := by
  obtain ⟨lt, hlt, _⟩ := listGet_ok hd
  obtain ⟨lc, hlc, _⟩ := listGet_ok hc
  obtain ⟨lh, hlh, _⟩ := listGet_ok hh
  unfold renderPrice
  rw [hlt, hlc, hlh]
  exact ⟨_, rfl⟩

theorem renderPrice_ne_zeroDiv {env : MplEnv} {df : DataFrame} {ws cs : ℕ} {times : List ℚ} :
    renderPrice env df ws cs times ≠ Except.error PyErr.zeroDiv := by
  intro h
  unfold renderPrice at h
  split at h
  · rename_i e he
    exact PyErr.noConfusion ((listGet_error he).symm.trans (Except.error.inj h))
  · split at h
    · rename_i e he
      exact PyErr.noConfusion ((listGet_error he).symm.trans (Except.error.inj h))
    · split at h
      · rename_i e he
        exact PyErr.noConfusion ((listGet_error he).symm.trans (Except.error.inj h))
      · exact Except.noConfusion h

theorem renderVolume_elim {df : DataFrame} {ws cs : ℕ} {times : List ℚ} {p : VolumePane}
    (h : renderVolume df ws cs times = Except.ok p) :
    ∃ m : ℚ, pyMax (listSlice df.volume ws (cs + 1)) = Except.ok m ∧
      p.ylim = (0, m / VOLUME_CHART_HEIGHT) := by
  unfold renderVolume at h
  simp only [] at h
  split at h
  · exact Except.noConfusion h
  · rename_i m hm
    exact ⟨m, hm, by rw [← Except.ok.inj h]⟩

theorem renderVolume_ok {df : DataFrame} {ws cs : ℕ} (times : List ℚ)
    (hws : ws ≤ cs) (hv : cs < df.volume.length) :
    ∃ p, renderVolume df ws cs times = Except.ok p := by
  have hne : listSlice df.volume ws (cs + 1) ≠ [] := by
    intro hnil
    have := listSlice_length df.volume ws (cs + 1)
    rw [hnil] at this
    simp only [List.length_nil] at this
    omega
  obtain ⟨m, hm⟩ := pyMax_ok hne
  unfold renderVolume
  simp only []
  rw [hm]
  exact ⟨_, rfl⟩

theorem renderVolume_ne_zeroDiv {df : DataFrame} {ws cs : ℕ} {times : List ℚ} :
    renderVolume df ws cs times ≠ Except.error PyErr.zeroDiv := by
  intro h
  unfold renderVolume at h
  simp only [] at h
  split at h
  · rename_i e he
    exact PyErr.noConfusion ((pyMax_error he).1.symm.trans (Except.error.inj h))
  · exact Except.noConfusion h

theorem renderTrades_singleton_in {df : DataFrame} {ws cs : ℕ} {t : Trade} {d c : ℚ}
    (hin : inWindow ws cs t.step = true)
    (hd : listGet df.date t.step.toNat = Except.ok d)
    (hc : listGet df.close t.step.toNat = Except.ok c) :
    renderTrades df ws cs [t] =
      Except.ok [⟨d, c, if t.type = "buy" then "g" else "r"⟩] := by
  unfold renderTrades
  rw [if_pos hin, hd, hc]
  rfl

theorem renderTrades_singleton_out {df : DataFrame} {ws cs : ℕ} {t : Trade}
    (hout : inWindow ws cs t.step = false) :
    renderTrades df ws cs [t] = Except.ok [] := by
  unfold renderTrades
  rw [if_neg (by rw [hout]; exact Bool.false_ne_true)]
  rfl

theorem renderTrades_length {df : DataFrame} {ws cs : ℕ} :
    ∀ (ts : List Trade) (res : List Arrow),
      renderTrades df ws cs ts = Except.ok res →
      res.length = (ts.filter (fun t => inWindow ws cs t.step)).length := by
  intro ts
  induction ts with
  | nil =>
    intro res h
    rw [← Except.ok.inj h]
    rfl
  | cons t ts ih =>
    intro res h
    by_cases hin : inWindow ws cs t.step = true
    · simp only [renderTrades, if_pos hin] at h
      cases hd : listGet df.date t.step.toNat with
      | error e => rw [hd] at h; exact Except.noConfusion h
      | ok d =>
        rw [hd] at h
        cases hc : listGet df.close t.step.toNat with
        | error e => rw [hc] at h; exact Except.noConfusion h
        | ok c =>
          rw [hc] at h
          cases hr : renderTrades df ws cs ts with
          | error e => rw [hr] at h; exact Except.noConfusion h
          | ok rest =>
            rw [hr] at h
            rw [← Except.ok.inj h]
            rw [List.filter_cons, if_pos hin]
            simp only [List.length_cons]
            rw [ih rest hr]
    · simp only [renderTrades, if_neg hin] at h
      rw [List.filter_cons, if_neg hin]
      exact ih res h

theorem renderTrades_ok {df : DataFrame} {cs : ℕ} (ws : ℕ)
    (hd : cs < df.date.length) (hc : cs < df.close.length) :
    ∀ ts : List Trade, ∃ ar, renderTrades df ws cs ts = Except.ok ar := by
  intro ts
  induction ts with
  | nil => exact ⟨[], rfl⟩
  | cons t ts ih =>
    obtain ⟨ar, har⟩ := ih
    by_cases hin : inWindow ws cs t.step = true
    · have hstep : t.step.toNat ≤ cs := by
        have := of_decide_eq_true hin
        omega
      obtain ⟨d, hdok, _⟩ := listGet_ok (show t.step.toNat < df.date.length by omega)
      obtain ⟨cv, hcok, _⟩ := listGet_ok (show t.step.toNat < df.close.length by omega)
      simp only [renderTrades, if_pos hin]
      rw [hdok, hcok, har]
      exact ⟨_, rfl⟩
    · refine ⟨ar, ?_⟩
      simp only [renderTrades, if_neg hin]
      exact har

theorem renderTrades_ne_zeroDiv {df : DataFrame} {ws cs : ℕ} :
    ∀ ts : List Trade, renderTrades df ws cs ts ≠ Except.error PyErr.zeroDiv := by
  intro ts
  induction ts with
  | nil => exact fun h => Except.noConfusion h
  | cons t ts ih =>
    intro h
    by_cases hin : inWindow ws cs t.step = true
    · simp only [renderTrades, if_pos hin] at h
      cases hd : listGet df.date t.step.toNat with
      | error e =>
        rw [hd] at h
        exact PyErr.noConfusion ((listGet_error hd).symm.trans (Except.error.inj h))
      | ok d =>
        rw [hd] at h
        cases hc : listGet df.close t.step.toNat with
        | error e =>
          rw [hc] at h
          exact PyErr.noConfusion ((listGet_error hc).symm.trans (Except.error.inj h))
        | ok c =>
          rw [hc] at h
          cases hr : renderTrades df ws cs ts with
          | error e =>
            rw [hr] at h
            rw [Except.error.inj h] at hr
            exact ih hr
          | ok rest => rw [hr] at h; exact Except.noConfusion h
    · simp only [renderTrades, if_neg hin] at h
      exact ih h

theorem render_error_of_profitCalc {env : MplEnv} {c : Chart} {cs : ℕ} {nws : List ℚ}
    {bs : List Benchmark} {ts : List Trade} {wsize : ℕ} {e : PyErr}
    (h : profitCalc nws = Except.error e) :
    render env c cs nws bs ts wsize = Except.error e := by
  unfold render
  rw [h]

theorem render_elim {env : MplEnv} {c : Chart} {cs : ℕ} {nws : List ℚ}
    {bs : List Benchmark} {ts : List Trade} {wsize : ℕ} {c' : Chart}
    (h : render env c cs nws bs ts wsize = Except.ok c') :
    ∃ pr nwp pp vp ar,
      profitCalc nws = Except.ok pr ∧
      renderNetWorth c.df (window_start cs wsize).toNat cs
        (listSlice c.df.date (window_start cs wsize).toNat (cs + 1)) nws bs = Except.ok nwp ∧
      renderPrice env c.df (window_start cs wsize).toNat cs
        (listSlice c.df.date (window_start cs wsize).toNat (cs + 1)) = Except.ok pp ∧
      renderVolume c.df (window_start cs wsize).toNat cs
        (listSlice c.df.date (window_start cs wsize).toNat (cs + 1)) = Except.ok vp ∧
      renderTrades c.df (window_start cs wsize).toNat cs ts = Except.ok ar ∧
      c' = ⟨c.df, ⟨mkTitle pr.1 pr.2, nwp, pp, vp, ar,
        (listSlice c.df.date (window_start cs wsize).toNat (cs + 1)).map env.fmtDate,
        false, c.fig.isOpen⟩⟩ := by
  unfold render at h
  split at h
  · exact Except.noConfusion h
  · rename_i pr hpr
    simp only [] at h
    split at h
    · exact Except.noConfusion h
    · rename_i nwp hnwp
      split at h
      · exact Except.noConfusion h
      · rename_i pp hpp
        split at h
        · exact Except.noConfusion h
        · rename_i vp hvp
          split at h
          · exact Except.noConfusion h
          · rename_i ar har
            exact ⟨pr, nwp, pp, vp, ar, hpr, hnwp, hpp, hvp, har, (Except.ok.inj h).symm⟩

theorem render_intro {env : MplEnv} {c : Chart} {cs : ℕ} {nws : List ℚ}
    {bs : List Benchmark} {ts : List Trade} {wsize : ℕ} {pr : ℚ × ℚ}
    {nwp : NetWorthPane} {pp : PricePane} {vp : VolumePane} {ar : List Arrow}
    (h1 : profitCalc nws = Except.ok pr)
    (h2 : renderNetWorth c.df (window_start cs wsize).toNat cs
      (listSlice c.df.date (window_start cs wsize).toNat (cs + 1)) nws bs = Except.ok nwp)
    (h3 : renderPrice env c.df (window_start cs wsize).toNat cs
      (listSlice c.df.date (window_start cs wsize).toNat (cs + 1)) = Except.ok pp)
    (h4 : renderVolume c.df (window_start cs wsize).toNat cs
      (listSlice c.df.date (window_start cs wsize).toNat (cs + 1)) = Except.ok vp)
    (h5 : renderTrades c.df (window_start cs wsize).toNat cs ts = Except.ok ar) :
    render env c cs nws bs ts wsize = Except.ok ⟨c.df,
      ⟨mkTitle pr.1 pr.2, nwp, pp, vp, ar,
        (listSlice c.df.date (window_start cs wsize).toNat (cs + 1)).map env.fmtDate,
        false, c.fig.isOpen⟩⟩ := by
  unfold render
  simp only [h1, h2, h3, h4, h5]

theorem renderBenchmarks_get? (times : List ℚ) (ws cs : ℕ) (bs : List Benchmark) (i : ℕ) :
    (renderBenchmarks times ws cs bs).get? i = (bs.get? i).map (fun b =>
      ⟨times, listSlice b.values ws (cs + 1), b.label,
        colors.getD (i % colors.length) "", 3/10⟩) := by
  unfold renderBenchmarks
  rw [List.get?_map, List.get?_enum]
  cases bs.get? i <;> rfl

/-- C2: the rendered window is `[max(current_step − window_size, 0), current_step]`
inclusive: the start index is never negative and never exceeds `current_step`;
when `current_step ≥ window_size` it equals `current_step − window_size` and the
slice of dates drawn has exactly `window_size + 1` entries; when
`current_step < window_size` the start is clamped to `0`. -/
theorem render_window_bounds (current_step window_size : ℕ) (dates : List ℚ)
    (hlen : current_step + 1 ≤ dates.length) :
    (0 : ℤ) ≤ window_start current_step window_size ∧
    (window_start current_step window_size).toNat ≤ current_step ∧
    (window_size ≤ current_step →
      (window_start current_step window_size).toNat = current_step - window_size ∧
      (listSlice dates (window_start current_step window_size).toNat
        (current_step + 1)).length = window_size + 1) ∧
    (current_step < window_size → (window_start current_step window_size).toNat = 0) := by
  unfold window_start
  refine ⟨le_max_right _ _, by omega, ?_, by omega⟩
  intro h
  refine ⟨by omega, ?_⟩
  rw [listSlice_length]
  omega

/-- Witness for C2 at `current_step = 5`, `window_size = 3`. -/
theorem render_window_bounds_witness :
    (0 : ℤ) ≤ window_start 5 3 ∧ (window_start 5 3).toNat ≤ 5 ∧
    (3 ≤ 5 → (window_start 5 3).toNat = 5 - 3 ∧
      (listSlice [0, 1, 2, 3, 4, 5] (window_start 5 3).toNat (5 + 1)).length = 3 + 1) ∧
    (5 < 3 → (window_start 5 3).toNat = 0) :=
  render_window_bounds 5 3 [0, 1, 2, 3, 4, 5] (by decide)

/-- C6: the `k`-th benchmark (1-based) is plotted with the palette color at
index `(k − 1) mod 9`, and with 10 or more benchmarks the 10th gets the same
color as the 1st. -/
theorem benchmark_color_palette_mod (times : List ℚ) (ws cs : ℕ)
    (benchmarks : List Benchmark) (k : ℕ) (h1 : 1 ≤ k) (h2 : k ≤ benchmarks.length) :
    (∃ pl : PlotLine, (renderBenchmarks times ws cs benchmarks).get? (k - 1) = some pl ∧
      pl.color = colors.getD ((k - 1) % 9) "") ∧
    (10 ≤ benchmarks.length →
      ∃ pl1 pl10 : PlotLine,
        (renderBenchmarks times ws cs benchmarks).get? 0 = some pl1 ∧
        (renderBenchmarks times ws cs benchmarks).get? 9 = some pl10 ∧
        pl10.color = pl1.color) := by
  constructor
  · cases hb : benchmarks.get? (k - 1) with
    | none => exact absurd (List.get?_eq_none.mp hb) (by omega)
    | some b =>
      exact ⟨⟨times, listSlice b.values ws (cs + 1), b.label,
          colors.getD ((k - 1) % 9) "", 3/10⟩,
        by rw [renderBenchmarks_get?, hb]; rfl, rfl⟩
  · intro h10
    cases hb1 : benchmarks.get? 0 with
    | none => exact absurd (List.get?_eq_none.mp hb1) (by omega)
    | some b1 =>
      cases hb10 : benchmarks.get? 9 with
      | none => exact absurd (List.get?_eq_none.mp hb10) (by omega)
      | some b10 =>
        refine ⟨⟨times, listSlice b1.values ws (cs + 1), b1.label,
            colors.getD 0 "", 3/10⟩,
          ⟨times, listSlice b10.values ws (cs + 1), b10.label,
            colors.getD 0 "", 3/10⟩, ?_, ?_, rfl⟩
        · rw [renderBenchmarks_get?, hb1]; rfl
        · rw [renderBenchmarks_get?, hb10]; rfl

/-- Witness for C6 with ten concrete benchmarks, `k = 1`. -/
theorem benchmark_color_palette_mod_witness :
    (∃ pl : PlotLine, (renderBenchmarks [] 0 0 bs10).get? 0 = some pl ∧
      pl.color = colors.getD 0 "") ∧
    (∃ pl1 pl10 : PlotLine,
      (renderBenchmarks [] 0 0 bs10).get? 0 = some pl1 ∧
      (renderBenchmarks [] 0 0 bs10).get? 9 = some pl10 ∧
      pl10.color = pl1.color) := by
  have h := benchmark_color_palette_mod [] 0 0 bs10 1 (by decide) (by decide)
  exact ⟨h.1, h.2 (by decide)⟩

/-- C3: a trade whose step lies outside the current window
`[max(current_step − window_size, 0), current_step]` is not drawn; a trade
inside it yields exactly one arrow anchored at that step's (date, close),
green when its type is `'buy'`, red when it is `'sell'`; over a whole
collection, the arrows drawn are exactly one per in-window trade. -/
theorem trades_window_filter_spec (df : DataFrame) (current_step window_size : ℕ)
    (trades : List Trade) :
    (∀ s : ℤ, (current_step : ℤ) < maxsize →
      (inWindow (window_start current_step window_size).toNat current_step s = true ↔
        (window_start current_step window_size ≤ s ∧ s ≤ (current_step : ℤ)))) ∧
    (∀ t : Trade,
      inWindow (window_start current_step window_size).toNat current_step t.step = false →
      renderTrades df (window_start current_step window_size).toNat current_step [t] =
        Except.ok []) ∧
    (∀ (t : Trade) (d c : ℚ),
      inWindow (window_start current_step window_size).toNat current_step t.step = true →
      listGet df.date t.step.toNat = Except.ok d →
      listGet df.close t.step.toNat = Except.ok c →
      renderTrades df (window_start current_step window_size).toNat current_step [t] =
        Except.ok [⟨d, c, if t.type = "buy" then "g" else "r"⟩]) ∧
    (∀ res : List Arrow,
      renderTrades df (window_start current_step window_size).toNat current_step trades =
        Except.ok res →
      res.length = (trades.filter (fun t =>
        inWindow (window_start current_step window_size).toNat current_step t.step)).length) := by
  refine ⟨?_, ?_, ?_, ?_⟩
  · intro s hcs
    unfold inWindow
    rw [decide_eq_true_iff]
    unfold window_start at *
    constructor
    · intro ⟨ha, hb, hc⟩
      constructor <;> omega
    · intro ⟨ha, hb⟩
      refine ⟨by omega, by omega, by omega⟩
  · intro t h
    exact renderTrades_singleton_out h
  · intro t d c h hd hc
    exact renderTrades_singleton_in h hd hc
  · intro res h
    exact renderTrades_length trades res h

/-- Witness for C3 on the one-row dataframe `df0`: an in-window sell trade
draws one red arrow at (date, close) = (1, 2); an out-of-window trade draws
nothing. -/
theorem trades_window_filter_spec_witness :
    renderTrades df0 0 0 [⟨0, "sell"⟩] = Except.ok [⟨1, 2, "r"⟩] ∧
    renderTrades df0 0 0 [⟨5, "buy"⟩] = Except.ok [] ∧
    (inWindow 0 0 0 = true ↔ (window_start 0 0 ≤ (0 : ℤ) ∧ (0 : ℤ) ≤ 0)) := by
  have h := trades_window_filter_spec df0 0 0 [⟨0, "sell"⟩]
  refine ⟨?_, ?_, ?_⟩
  · have h3 := h.2.2.1 ⟨0, "sell"⟩ 1 2 (by decide) (by decide) (by decide)
    exact h3.trans (by decide)
  · exact h.2.1 ⟨5, "buy"⟩ (by decide)
  · exact h.1 0 (by decide)

/-- C10: an in-window trade whose type is any string other than exactly
`'buy'` is drawn red; the arrow is green exactly when the type is `'buy'`. -/
theorem nonbuy_trades_red (df : DataFrame) (ws cs : ℕ) (t : Trade) (d c : ℚ)
    (hin : inWindow ws cs t.step = true)
    (hd : listGet df.date t.step.toNat = Except.ok d)
    (hc : listGet df.close t.step.toNat = Except.ok c) :
    (t.type ≠ "buy" → renderTrades df ws cs [t] = Except.ok [⟨d, c, "r"⟩]) ∧
    (renderTrades df ws cs [t] = Except.ok [⟨d, c, "g"⟩] ↔ t.type = "buy") := by
  have hone := renderTrades_singleton_in hin hd hc
  constructor
  · intro hne
    rw [hone, if_neg hne]
  · constructor
    · intro hg
      by_contra hne
      rw [if_neg hne] at hone
      have h2 : ([⟨d, c, "r"⟩] : List Arrow) = [⟨d, c, "g"⟩] :=
        Except.ok.inj (hone.symm.trans hg)
      obtain ⟨h3, -⟩ := List.cons.inj h2
      have h4 : "r" = "g" := congrArg Arrow.color h3
      exact absurd h4 (by decide)
    · intro hb
      rw [hone, if_pos hb]

/-- Witness for C10: a trade of type `'hold'` (neither buy nor sell) inside
the window is drawn red, and is not drawn green. -/
theorem nonbuy_trades_red_witness :
    renderTrades df0 0 0 [⟨0, "hold"⟩] = Except.ok [⟨1, 2, "r"⟩] ∧
    ¬ (renderTrades df0 0 0 [⟨0, "hold"⟩] = Except.ok [⟨1, 2, "g"⟩]) := by
  have h := nonbuy_trades_red df0 0 0 ⟨0, "hold"⟩ 1 2 (by decide) (by decide) (by decide)
  refine ⟨h.1 (by decide), fun hg => ?_⟩
  exact absurd (h.2.mp hg) (by decide)

/-- Counterexample to C1: `render` rounds the first and last net worths to 2
decimals *before* the division.  For `net_worths = [1, 1.004]` the code
displays `0.0`, while the claimed formula over the raw values gives
`round((1.004 − 1) / 1 × 100, 2) = 0.4`. -/
theorem profit_uses_rounded_inputs_cex :
    profitCalc [1, 251/250] = Except.ok (1, 0) ∧
    pyRound2 ((251/250 - 1) / 1 * 100) = 2/5 ∧ (0 : ℚ) ≠ 2/5 := by
  refine ⟨by decide, by decide, by decide⟩

/-- C1 (amended): the displayed net worth is `round(net_worths[-1], 2)`, and
the profit percent is `round((nw − inw) / inw × 100, 2)` computed over the
*rounded* values `nw = round(net_worths[-1], 2)`, `inw = round(net_worths[0], 2)`;
the window title is `"Net worth: $<net_worth> | Profit: <profit_percent>%"`;
in particular `net_worths = [1000, 1100]` yields profit percent `10`. -/
theorem profit_percent_and_title_spec (nws : List ℚ) (first lastv : ℚ)
    (hf : nws.head? = some first) (hl : nws.getLast? = some lastv)
    (h0 : pyRound2 first ≠ 0) :
    profitCalc nws = Except.ok (pyRound2 lastv,
      pyRound2 ((pyRound2 lastv - pyRound2 first) / pyRound2 first * 100)) ∧
    (∀ (env : MplEnv) (c : Chart) (bs : List Benchmark) (ts : List Trade)
        (cs wsize : ℕ) (c' : Chart),
      render env c cs nws bs ts wsize = Except.ok c' →
      c'.fig.title = mkTitle (pyRound2 lastv)
        (pyRound2 ((pyRound2 lastv - pyRound2 first) / pyRound2 first * 100))) ∧
    profitCalc [1000, 1100] = Except.ok (1100, 10) := by
  have hpc : profitCalc nws = Except.ok (pyRound2 lastv,
      pyRound2 ((pyRound2 lastv - pyRound2 first) / pyRound2 first * 100)) := by
    rw [profitCalc_eq hf hl, if_neg h0]
  refine ⟨hpc, ?_, by decide⟩
  intro env c bs ts cs wsize c' h
  obtain ⟨pr, nwp, pp, vp, ar, hpr, -, -, -, -, hc'⟩ := render_elim h
  have hpr2 : pr = (pyRound2 lastv,
      pyRound2 ((pyRound2 lastv - pyRound2 first) / pyRound2 first * 100)) :=
    Except.ok.inj (hpr.symm.trans hpc)
  rw [hc', hpr2]

/-- Witness for C1 (amended) at `net_worths = [1000, 1100]`. -/
theorem profit_percent_and_title_spec_witness :
    profitCalc [1000, 1100] = Except.ok (1100, 10) := by
  have h := profit_percent_and_title_spec [1000, 1100] 1000 1100 rfl (by decide) (by decide)
  exact h.1.trans (by decide)

/-- Counterexample to C4: the code divides by `round(net_worths[0], 2)`, so a
*nonzero* first net worth that rounds to zero (here `0.004`) still raises
`ZeroDivisionError`. -/
theorem div_by_zero_nonzero_first_cex :
    (1/250 : ℚ) ≠ 0 ∧ profitCalc [1/250, 1] = Except.error PyErr.zeroDiv := by
  refine ⟨by decide, by decide⟩

/-- C4 (amended): `render` propagates a `ZeroDivisionError` (with no
recovery) exactly when the first net worth *rounded to 2 decimals* is zero;
no other part of `render` can raise a division error. -/
theorem render_zero_div_iff_rounded_first_zero (env : MplEnv) (c : Chart) (cs : ℕ)
    (nws : List ℚ) (bs : List Benchmark) (ts : List Trade) (wsize : ℕ) (first : ℚ)
    (hf : nws.head? = some first) :
    render env c cs nws bs ts wsize = Except.error PyErr.zeroDiv ↔
      pyRound2 first = 0 := by
  have hne : nws ≠ [] := by
    intro hnil
    rw [hnil] at hf
    exact Option.noConfusion hf
  cases hl : nws.getLast? with
  | none => exact absurd (List.getLast?_eq_none.mp hl) hne
  | some lastv =>
    constructor
    · intro h
      by_contra h0
      have hpc : profitCalc nws = Except.ok (pyRound2 lastv,
          pyRound2 ((pyRound2 lastv - pyRound2 first) / pyRound2 first * 100)) := by
        rw [profitCalc_eq hf hl, if_neg h0]
      unfold render at h
      rw [hpc] at h
      simp only [] at h
      split at h
      · rename_i e he
        exact renderNetWorth_ne_zeroDiv (he.trans (by rw [Except.error.inj h]))
      · split at h
        · rename_i e he
          exact renderPrice_ne_zeroDiv (he.trans (by rw [Except.error.inj h]))
        · split at h
          · rename_i e he
            exact renderVolume_ne_zeroDiv (he.trans (by rw [Except.error.inj h]))
          · split at h
            · rename_i e he
              exact renderTrades_ne_zeroDiv ts (he.trans (by rw [Except.error.inj h]))
            · exact Except.noConfusion h
    · intro h0
      have hpc : profitCalc nws = Except.error PyErr.zeroDiv := by
        rw [profitCalc_eq hf hl, if_pos h0]
      exact render_error_of_profitCalc hpc

/-- Witness for C4 (amended): with `net_worths = [0, 1]` the render call
raises `ZeroDivisionError`. -/
theorem render_zero_div_iff_rounded_first_zero_witness :
    render env0 c0 0 [0, 1] [] [] 200 = Except.error PyErr.zeroDiv :=
  (render_zero_div_iff_rounded_first_zero env0 c0 0 [0, 1] [] [] 200 0 rfl).mpr (by decide)

/-- C5: when the net worths, Date, Close, High and Volume columns all have at
least `current_step + 1` entries (and each benchmark too), no sequence access
in `render` is out of bounds and the visible volume window is nonempty: the
only possible failure is the profit division, never an `IndexError` or a
`ValueError`. -/
theorem render_accesses_in_bounds (env : MplEnv) (c : Chart) (cs : ℕ) (nws : List ℚ)
    (bs : List Benchmark) (ts : List Trade) (wsize : ℕ)
    (h1 : cs + 1 ≤ nws.length)
    (h2 : cs + 1 ≤ c.df.date.length) (h3 : cs + 1 ≤ c.df.close.length)
    (h4 : cs + 1 ≤ c.df.high.length) (h5 : cs + 1 ≤ c.df.volume.length)
    (h6 : ∀ b ∈ bs, cs + 1 ≤ b.values.length) :
    render env c cs nws bs ts wsize ≠ Except.error PyErr.indexError ∧
    render env c cs nws bs ts wsize ≠ Except.error PyErr.valueError := by
  have hne : nws ≠ [] := by
    intro hnil
    rw [hnil] at h1
    exact absurd h1 (by simp)
  have hwsle : (window_start cs wsize).toNat ≤ cs := by
    unfold window_start
    omega
  rcases profitCalc_cases hne with hz | ⟨pr, hpr⟩
  · rw [render_error_of_profitCalc hz]
    exact ⟨fun h => PyErr.noConfusion (Except.error.inj h),
      fun h => PyErr.noConfusion (Except.error.inj h)⟩
  · obtain ⟨nwp, hnwp⟩ := @renderNetWorth_ok c.df cs nws (window_start cs wsize).toNat
      (listSlice c.df.date (window_start cs wsize).toNat (cs + 1)) bs
      (by omega) (by omega)
    obtain ⟨pp, hpp⟩ := @renderPrice_ok env c.df cs (window_start cs wsize).toNat
      (listSlice c.df.date (window_start cs wsize).toNat (cs + 1))
      (by omega) (by omega) (by omega)
    obtain ⟨vp, hvp⟩ := @renderVolume_ok c.df (window_start cs wsize).toNat cs
      (listSlice c.df.date (window_start cs wsize).toNat (cs + 1)) hwsle (by omega)
    obtain ⟨ar, har⟩ := @renderTrades_ok c.df cs (window_start cs wsize).toNat
      (by omega) (by omega) ts
    rw [render_intro hpr hnwp hpp hvp har]
    exact ⟨fun h => Except.noConfusion h, fun h => Except.noConfusion h⟩

/-- Witness for C5 on the one-row chart. -/
theorem render_accesses_in_bounds_witness :
    render env0 c0 0 [1] [] [] 200 ≠ Except.error PyErr.indexError ∧
    render env0 c0 0 [1] [] [] 200 ≠ Except.error PyErr.valueError :=
  render_accesses_in_bounds env0 c0 0 [1] [] [] 200 (by decide) (by decide)
    (by decide) (by decide) (by decide) (by decide)

/-- C7: after a successful render, the volume pane's y-axis range is exactly
`[0, max(visible volume) / 0.33]`, where the visible volume is the Volume
column restricted to the current window. -/
theorem volume_ylim_spec (env : MplEnv) (c : Chart) (cs : ℕ) (nws : List ℚ)
    (bs : List Benchmark) (ts : List Trade) (wsize : ℕ) (c' : Chart)
    (h : render env c cs nws bs ts wsize = Except.ok c') :
    ∃ m : ℚ,
      m ∈ listSlice c.df.volume (window_start cs wsize).toNat (cs + 1) ∧
      (∀ x ∈ listSlice c.df.volume (window_start cs wsize).toNat (cs + 1), x ≤ m) ∧
      c'.fig.volume.ylim = (0, m / VOLUME_CHART_HEIGHT) := by
  obtain ⟨pr, nwp, pp, vp, ar, -, -, -, hvp, -, hc'⟩ := render_elim h
  obtain ⟨m, hm, hylim⟩ := renderVolume_elim hvp
  obtain ⟨hmem, hub⟩ := pyMax_spec hm
  exact ⟨m, hmem, hub, by rw [hc']; exact hylim⟩

/-- Witness for C7 on the one-row chart. -/
theorem volume_ylim_spec_witness :
    ∃ c' : Chart, render env0 c0 0 [1] [] [] 200 = Except.ok c' ∧
      ∃ m : ℚ, m ∈ listSlice c0.df.volume (window_start 0 200).toNat (0 + 1) ∧
        (∀ x ∈ listSlice c0.df.volume (window_start 0 200).toNat (0 + 1), x ≤ m) ∧
        c'.fig.volume.ylim = (0, m / VOLUME_CHART_HEIGHT) := by
  cases hr : render env0 c0 0 [1] [] [] 200 with
  | error e =>
    cases e with
    | indexError => exact absurd hr (by decide)
    | zeroDiv => exact absurd hr (by decide)
    | valueError => exact absurd hr (by decide)
  | ok c' => exact ⟨c', rfl, volume_ylim_spec env0 c0 0 [1] [] [] 200 c' hr⟩

/-- C8: after a successful render, the net-worth pane's y-axis limits are
`[min(net_worths) / 1.25, max(net_worths) × 1.25]` (`1.25 = 5/4`) computed
over the full net-worth history passed to `render`, not only the visible
window. -/
theorem net_worth_ylim_full_history (env : MplEnv) (c : Chart) (cs : ℕ) (nws : List ℚ)
    (bs : List Benchmark) (ts : List Trade) (wsize : ℕ) (c' : Chart)
    (h : render env c cs nws bs ts wsize = Except.ok c') :
    ∃ mn mx : ℚ,
      mn ∈ nws ∧ (∀ x ∈ nws, mn ≤ x) ∧
      mx ∈ nws ∧ (∀ x ∈ nws, x ≤ mx) ∧
      c'.fig.netWorth.ylim = (mn / (5/4), mx * (5/4)) := by
  obtain ⟨pr, nwp, pp, vp, ar, -, hnwp, -, -, -, hc'⟩ := render_elim h
  obtain ⟨mn, mx, hmn, hmx, hylim⟩ := renderNetWorth_elim hnwp
  obtain ⟨hmem1, hlb⟩ := pyMin_spec hmn
  obtain ⟨hmem2, hub⟩ := pyMax_spec hmx
  exact ⟨mn, mx, hmem1, hlb, hmem2, hub, by rw [hc']; exact hylim⟩

/-- Witness for C8 on the one-row chart. -/
theorem net_worth_ylim_full_history_witness :
    ∃ c' : Chart, render env0 c0 0 [1] [] [] 200 = Except.ok c' ∧
      ∃ mn mx : ℚ,
        mn ∈ ([1] : List ℚ) ∧ (∀ x ∈ ([1] : List ℚ), mn ≤ x) ∧
        mx ∈ ([1] : List ℚ) ∧ (∀ x ∈ ([1] : List ℚ), x ≤ mx) ∧
        c'.fig.netWorth.ylim = (mn / (5/4), mx * (5/4)) := by
  cases hr : render env0 c0 0 [1] [] [] 200 with
  | error e =>
    cases e with
    | indexError => exact absurd hr (by decide)
    | zeroDiv => exact absurd hr (by decide)
    | valueError => exact absurd hr (by decide)
  | ok c' =>
    exact ⟨c', rfl, net_worth_ylim_full_history env0 c0 0 [1] [] [] 200 c' hr⟩

/-- C9: neither `render` nor `close` modifies the price frame supplied at
construction: a successful render returns a chart with the same dataframe
(all six columns, hence every row, unchanged), and closing preserves it too.
The net worths, benchmarks and trades are immutable values in this
embedding, and `render` only reads them. -/
theorem price_frame_unchanged (env : MplEnv) (c : Chart) (cs : ℕ) (nws : List ℚ)
    (bs : List Benchmark) (ts : List Trade) (wsize : ℕ) (c' : Chart)
    (h : render env c cs nws bs ts wsize = Except.ok c') :
    c'.df = c.df ∧ (closeChart c).df = c.df ∧ (closeChart c').df = c.df := by
  obtain ⟨pr, nwp, pp, vp, ar, -, -, -, -, -, hc'⟩ := render_elim h
  subst hc'
  exact ⟨rfl, rfl, rfl⟩

/-- Witness for C9 on the one-row chart. -/
theorem price_frame_unchanged_witness :
    ∃ c' : Chart, render env0 c0 0 [1] [] [] 200 = Except.ok c' ∧
      c'.df = c0.df ∧ (closeChart c0).df = c0.df ∧ (closeChart c').df = c0.df := by
  cases hr : render env0 c0 0 [1] [] [] 200 with
  | error e =>
    cases e with
    | indexError => exact absurd hr (by decide)
    | zeroDiv => exact absurd hr (by decide)
    | valueError => exact absurd hr (by decide)
  | ok c' =>
    exact ⟨c', rfl, price_frame_unchanged env0 c0 0 [1] [] [] 200 c' hr⟩
